import Mathlib

/-!
# Verification of the auxbox playback/navigation core

Shallow embedding of the auxbox daemon's playlist model
(`internal/playlist/playlist.go`), audio player (`internal/audio/utils.go`),
command handlers (`internal/server/commands`, info handlers), the server's
track-completion auto-advance, and the CLI volume-argument handling, together
with theorems settling the specification claims about them.

Go `int` values are embedded as `Int` (no arithmetic here approaches 64-bit
overflow), Go `float64` volume values as `Rat` (all volume arithmetic in the
source is exact at this granularity: comparisons against 0 and 1, division by
100, multiplication by 100 and truncation), and Go slices as `List`.
Fallible operations return an `Option String` error alongside the new state,
mirroring Go's `error` results.
-/

namespace Auxbox

/-- Truncation of a rational toward zero, the semantics of Go's `int(f)`
conversion applied to a float. `Int.div` truncates toward zero, and a
rational in canonical form is `num/den` with `den > 0`. -/
def goTrunc (q : ℚ) : ℤ := Int.tdiv q.num (q.den : ℤ)

/-- Embeds `shared.Track`: display filename, filesystem path, cached duration. -/
structure Track where
  filename : String
  path : String
  duration : String
  deriving DecidableEq, Repr

/-- The mutable state of `playlist.Playlist` (the embedding drops the mutex,
which only serializes access and has no sequential semantics). -/
structure PlaylistState where
  tracks : List Track
  currentIdx : ℤ
  source : String
  sourceType : String
  isShuffled : Bool
  deriving DecidableEq, Repr

/-- Embeds `playlist.NewPlaylist`: empty track list, cursor 0. -/
def newPlaylist : PlaylistState :=
  { tracks := [], currentIdx := 0, source := "", sourceType := "", isShuffled := false }

/-- Embeds `Playlist.LoadTracks`: replaces content, resets cursor to 0 and shuffle to
false. (The Go version always returns `nil`; the error is omitted.) -/
def loadTracks (p : PlaylistState) (tracks : List Track) (source sourceType : String) :
    PlaylistState :=
  { p with tracks := tracks, source := source, sourceType := sourceType,
           currentIdx := 0, isShuffled := false }

/-- Embeds `Playlist.GetCurrentTrack`: the track at `currentIdx`, or `none` when the
list is empty or the cursor is out of range. -/
def getCurrentTrack (p : PlaylistState) : Option Track :=
  if p.tracks.length = 0 ∨ p.currentIdx < 0 ∨ p.currentIdx ≥ p.tracks.length then none
  else p.tracks.get? p.currentIdx.toNat

/-- Embeds `Playlist.Next`. The shuffled branch calls `rand.Intn(len(tracks))`, whose
contract is a uniform value in `[0, len)`; the generator outcome is passed in
as `r` and reduced into range the way `Intn` guarantees. -/
def next (p : PlaylistState) (r : ℕ) : PlaylistState × Bool :=
  if p.tracks.length = 0 then (p, false)
  else if p.isShuffled then ({ p with currentIdx := (r % p.tracks.length : ℕ) }, true)
  else if p.currentIdx < p.tracks.length - 1 then ({ p with currentIdx := p.currentIdx + 1 }, true)
  else (p, false)

/-- Embeds `Playlist.Previous`: same shuffled branch as `Next`; otherwise decrements
with a lower bound at 0. -/
def previous (p : PlaylistState) (r : ℕ) : PlaylistState × Bool :=
  if p.tracks.length = 0 then (p, false)
  else if p.isShuffled then ({ p with currentIdx := (r % p.tracks.length : ℕ) }, true)
  else if p.currentIdx > 0 then ({ p with currentIdx := p.currentIdx - 1 }, true)
  else (p, false)

/-- Embeds `Playlist.SetCurrentIndex`: bounds-checked cursor set. -/
def setCurrentIndex (p : PlaylistState) (idx : ℤ) : PlaylistState × Bool :=
  if idx < 0 ∨ idx ≥ p.tracks.length then (p, false)
  else ({ p with currentIdx := idx }, true)

/-- Embeds `Playlist.GetTrackList`: the Go version returns a deep copy of the track
slice; copying is the identity here. -/
def getTrackList (p : PlaylistState) : List Track := p.tracks

/-- Embeds `Playlist.GetTrackWindow`: windowed slice of tracks around the current
index, returning `(tracks, startIdx, totalCount)`. Go's `/` on `int` truncates
toward zero (`Int.div`). The Go code copies the entries at indices
`startIdx..endIdx` into a fresh slice; `drop`/`take` produces that same slice. -/
def getTrackWindow (p : PlaylistState) (windowSize : ℤ) : List Track × ℤ × ℤ :=
  let totalTracks : ℤ := p.tracks.length
  if totalTracks = 0 then ([], 0, 0)
  else if totalTracks ≤ windowSize then (p.tracks, 0, totalTracks)
  else
    let contextSize := Int.tdiv (windowSize - 1) 2
    let startIdx := p.currentIdx - contextSize
    let endIdx := p.currentIdx + contextSize
    let se1 := if startIdx < 0 then ((0 : ℤ), endIdx + -startIdx) else (startIdx, endIdx)
    let se2 := if se1.2 ≥ totalTracks then (se1.1 - (se1.2 - totalTracks + 1), totalTracks - 1)
               else se1
    let startF := if se2.1 < 0 then 0 else se2.1
    ((p.tracks.drop startF.toNat).take (se2.2 - startF + 1).toNat, startF, totalTracks)

/-! ## Playback engine (`internal/audio/utils.go`)

The player aggregates `PlayerStatus` (playing/paused flags, position and
duration strings, status volume), the currently loaded track, the decoded
stream and beep control handles (embedded as presence booleans `hasStreamer`,
`hasCtrl`), and the `VolumeControl`'s own gain value `vcVolume`. File opening
and decoding are external capabilities, embedded as oracles
`decodeOk : String → Bool` (does open+decode succeed for this path) and
`durOf : String → String` (the duration string the position tracker derives
from the decoded stream). -/

/-- The state of `audio.Player` together with its `VolumeControl`. -/
structure PlayerState where
  currentTrack : Option Track
  isPlaying : Bool
  isPaused : Bool
  position : String
  duration : String
  /-- Embeds `Player.status.Volume`, what `GetStatus` reports. -/
  statusVolume : ℚ
  /-- Embeds `VolumeControl.volume`, the gain actually applied to the output stage. -/
  vcVolume : ℚ
  /-- whether `Player.streamer` is non-nil. -/
  hasStreamer : Bool
  /-- whether `VolumeControl.ctrl` is non-nil. -/
  hasCtrl : Bool
  deriving DecidableEq, Repr

/-- Embeds `audio.NewPlayer` composed with `NewVolumeControl`: nothing loaded,
both volume fields 1.0 (full volume). -/
def newPlayer : PlayerState :=
  { currentTrack := none, isPlaying := false, isPaused := false,
    position := "0:00", duration := "0:00",
    statusVolume := 1, vcVolume := 1, hasStreamer := false, hasCtrl := false }

/-- Embeds `Player.stopAndCleanup`: stops tracking, pauses the control, clears the
speaker queue, closes streamer and file (`cleanup`), and resets the status
flags and position. -/
def stopAndCleanup (p : PlayerState) : PlayerState :=
  { p with hasStreamer := false, isPlaying := false, isPaused := false, position := "0:00" }

/-- Embeds `Player.playInternal`: errors without a track or a control; otherwise
unpauses and marks playing. -/
def playInternal (p : PlayerState) : PlayerState × Option String :=
  if p.currentTrack = none then (p, some "no track loaded")
  else if ¬p.hasCtrl then (p, some "audio not initialized")
  else ({ p with isPlaying := true, isPaused := false }, none)

/-- Embeds `Player.Play`: errors without a track or control; no-op when already
playing; resumes when paused; otherwise starts fresh via `playInternal`. -/
def playerPlay (p : PlayerState) : PlayerState × Option String :=
  if p.currentTrack = none then (p, some "no track loaded")
  else if ¬p.hasCtrl then (p, some "audio not initialized")
  else if p.isPlaying then (p, none)
  else if p.isPaused then ({ p with isPlaying := true, isPaused := false }, none)
  else playInternal p

/-- Embeds `Player.Pause`: error when not playing (nothing mutated before that check),
error when the control is missing, otherwise pause. -/
def playerPause (p : PlayerState) : PlayerState × Option String :=
  if ¬p.isPlaying then (p, some "playback is not active")
  else if ¬p.hasCtrl then (p, some "audio not initialized")
  else ({ p with isPlaying := false, isPaused := true }, none)

/-- Embeds `Player.loadAudioFile`: opens and decodes the file (the `decodeOk`
oracle), then installs the streamer, recomputes the duration through the
position tracker, and sets up the volume control wrapper. Returns whether it
succeeded. -/
def loadAudioFile (decodeOk : String → Bool) (durOf : String → String)
    (p : PlayerState) (path : String) : PlayerState × Bool :=
  if decodeOk path then
    ({ p with hasStreamer := true, hasCtrl := true, duration := durOf path }, true)
  else (p, false)

/-- Embeds `Player.SetCurrentTrack`: remembers whether playback was active, stops and
cleans up, installs the new track, loads its audio (resetting the track to
`nil` on decode failure), and resumes playback when it was active before. -/
def setCurrentTrack (decodeOk : String → Bool) (durOf : String → String)
    (p : PlayerState) (track : Option Track) : PlayerState :=
  let wasPlaying := p.isPlaying
  let p1 := stopAndCleanup p
  let p2 := { p1 with currentTrack := track, position := "0:00",
                      isPlaying := false, isPaused := false }
  match track with
  | none => { p2 with duration := "0:00" }
  | some t =>
    let (p3, ok) := loadAudioFile decodeOk durOf p2 t.path
    if ok then (if wasPlaying then (playInternal p3).1 else p3)
    else { p3 with duration := "0:00", currentTrack := none }

/-- Embeds `VolumeControl.SetVolume`: rejects values outside `[0,1]` leaving the gain
unchanged, otherwise records the new gain. -/
def vcSetVolume (p : PlayerState) (v : ℚ) : PlayerState × Option String :=
  if v < 0 ∨ v > 1 then (p, some "volume must be between 0.0 and 1.0")
  else ({ p with vcVolume := v }, none)

/-- Embeds `Player.SetVolume`: assigns `status.Volume` first, then delegates to
`VolumeControl.SetVolume`, returning its error. -/
def playerSetVolume (p : PlayerState) (v : ℚ) : PlayerState × Option String :=
  vcSetVolume { p with statusVolume := v } v

/-! ## Responses and the info/navigation command handlers
(`internal/server/commands`, `shared` response types) -/

/-- Structured payload of a `shared.Response` (`TrackInfo`/`PlaylistInfo`/the
volume map); only the variants the claims touch are carried. -/
inductive RespData where
  | playlistInfo (source sourceType : String) (tracks : List String) (currentIdx : ℤ)
  | volumeInfo (volume : ℚ)
  deriving DecidableEq, Repr

/-- Embeds `shared.Response`. -/
structure Response where
  success : Bool
  message : String
  payload : Option RespData
  deriving DecidableEq, Repr

/-- Embeds `shared.NewSuccessResponse`. -/
def successResponse (msg : String) (d : Option RespData) : Response :=
  { success := true, message := msg, payload := d }

/-- Embeds `shared.NewErrorResponse`. -/
def errorResponse (msg : String) : Response :=
  { success := false, message := msg, payload := none }

/-- Embeds `InfoHandler.HandleList`: empty playlist yields a "No tracks loaded"
success; otherwise a success carrying the full filename list (via
`GetTrackList`) and the current index. -/
def handleList (p : PlaylistState) : Response :=
  let tracks := getTrackList p
  if tracks.length = 0 then successResponse "No tracks loaded" none
  else
    let trackNames := tracks.map Track.filename
    successResponse (toString tracks.length ++ " tracks loaded")
      (some (.playlistInfo p.source p.sourceType trackNames p.currentIdx))

/-- Embeds `InfoHandler.HandleVolume`: volume `-1` is a query reporting
`int(status.Volume*100)` percent and the raw 0.0–1.0 value, touching nothing;
otherwise the 0–100 value is divided by 100 and passed to `Player.SetVolume`,
a failure becoming an error response. -/
def handleVolume (p : PlayerState) (vol : ℤ) : PlayerState × Response :=
  if vol = -1 then
    let volumePercent := goTrunc (p.statusVolume * 100)
    (p, successResponse ("Volume: " ++ toString volumePercent ++ "%")
          (some (.volumeInfo p.statusVolume)))
  else
    let volumeFloat : ℚ := (vol : ℚ) / 100
    match playerSetVolume p volumeFloat with
    | (p', some e) => (p', errorResponse ("Failed to set volume: " ++ e))
    | (p', none) =>
      if vol = 0 then (p', successResponse "Volume set to 0% (muted)" none)
      else (p', successResponse ("Volume set to " ++ toString vol ++ "%") none)

/-! ## Navigation handler (`internal/server/commands/navigation.go`) -/

/-- Combined result of a dispatcher command touching playlist, player and
response. -/
structure CmdOutcome where
  playlist : PlaylistState
  player : PlayerState
  response : Response
  deriving DecidableEq, Repr

/-- The `for` loop of `NavigationHandler.HandleSkip`: calls `Playlist.Next` up
to `remaining` times, counting successes and stopping at the first failure.
`rngs i` is the generator outcome of the `i`-th call (unused off shuffle). -/
def skipLoop (pl : PlaylistState) (rngs : ℕ → ℕ) (i remaining skipped : ℕ) :
    PlaylistState × ℕ :=
  match remaining with
  | 0 => (pl, skipped)
  | m + 1 =>
    let (pl', moved) := next pl (rngs i)
    if moved then skipLoop pl' rngs (i + 1) m (skipped + 1)
    else (pl', skipped)

/-- Embeds `NavigationHandler.HandleSkip`: counts ≤ 0 become 1; advances the playlist
up to `count` times; zero movement is the "Already at the end of playlist"
error; otherwise the resulting current track is loaded into the player and the
response reports how many tracks were skipped. -/
def handleSkip (decodeOk : String → Bool) (durOf : String → String)
    (pl : PlaylistState) (player : PlayerState) (count : ℤ) (rngs : ℕ → ℕ) :
    CmdOutcome :=
  let c := if count ≤ 0 then 1 else count
  let (pl', skipped) := skipLoop pl rngs 0 c.toNat 0
  if skipped = 0 then
    { playlist := pl', player := player,
      response := errorResponse "Already at the end of playlist" }
  else
    match getCurrentTrack pl' with
    | some t =>
      { playlist := pl', player := setCurrentTrack decodeOk durOf player (some t),
        response := successResponse
          ("Skipped " ++ toString skipped ++ " track(s), now playing: " ++ t.filename) none }
    | none =>
      { playlist := pl', player := player,
        response := successResponse ("Skipped " ++ toString skipped ++ " track(s)") none }

/-! ## Repeat modes

The repository's README, roadmap and user guide document three repeat modes
(Off / All / One) with a boundary policy for auto-advance and skip, but no
repeat-mode state, command or branch exists anywhere under the provided
source: `playlist.Playlist` has no mode field and `Server.onTrackComplete`
always advances. The mode-aware operations are therefore modelled from the
spec and settle the repeat-mode claims against the documented policy. -/

/-- Repeat mode Off / All / One. -/
inductive RepeatMode where
  | off
  | all
  | one
  deriving DecidableEq, Repr

/-- Modelled from the spec: the repeat-aware forward advance used at skip and
completion boundaries is absent from the provided source. Policy per the spec:
`Off` stops at the end (this branch is exactly the source's `Playlist.Next`);
`All` wraps to index 0, or a fresh shuffle pick when shuffled; `One` stays on
the same track. -/
def advanceForwardRepeat (mode : RepeatMode) (p : PlaylistState) (r : ℕ) :
    PlaylistState × Bool :=
  match mode with
  | .off => next p r
  | .all =>
    let (p', moved) := next p r
    if moved then (p', true)
    else if p'.tracks.length = 0 then (p', false)
    else if p'.isShuffled then ({ p' with currentIdx := (r % p'.tracks.length : ℕ) }, true)
    else ({ p' with currentIdx := 0 }, true)
  | .one => (p, true)

/-- The dispatcher session: playlist plus player plus the (spec-modelled)
repeat mode. -/
structure Session where
  playlist : PlaylistState
  player : PlayerState
  repeatMode : RepeatMode
  deriving DecidableEq, Repr

/-- Modelled from the spec: the repeat-aware variant of
`Server.onTrackComplete` (the provided source's version always advances and
has no mode). On completion: mode `One` reloads and replays the same current
track without moving the cursor; otherwise the cursor advances under the
boundary policy and, when it moved, the new current track is loaded and
played; reaching the end with mode `Off` stops. -/
def onTrackCompleteRepeat (decodeOk : String → Bool) (durOf : String → String)
    (s : Session) (r : ℕ) : Session :=
  match s.repeatMode with
  | .one =>
    match getCurrentTrack s.playlist with
    | some t =>
      let loaded := setCurrentTrack decodeOk durOf s.player (some t)
      { s with player := (playerPlay loaded).1 }
    | none => s
  | mode =>
    let (pl', moved) := advanceForwardRepeat mode s.playlist r
    if moved then
      match getCurrentTrack pl' with
      | some t =>
        let loaded := setCurrentTrack decodeOk durOf s.player (some t)
        { s with playlist := pl', player := (playerPlay loaded).1 }
      | none => { s with playlist := pl' }
    else { s with playlist := pl' }

/-! ## CLI volume argument handling (`cmd` CLI, `handleVolumeCommand`) -/

/-- Digit-string value for `strconv.Atoi`: `none` unless the list is a
non-empty all-digit sequence. -/
def digitsVal : List Char → Option ℕ
  | [] => none
  | cs => cs.foldl (fun acc c => match acc with
      | none => none
      | some n => if c.isDigit then some (n * 10 + (c.toNat - 48)) else none)
      (some 0)

/-- Go `strconv.Atoi`: optional single leading sign, then decimal digits. -/
def atoi? (s : String) : Option ℤ :=
  match s.toList with
  | [] => none
  | '+' :: rest => (digitsVal rest).map (fun n => (n : ℤ))
  | '-' :: rest => (digitsVal rest).map (fun n => -(n : ℤ))
  | l => (digitsVal l).map (fun n => (n : ℤ))

/-- Embeds `CLI.handleVolumeCommand`: with no volume argument (`len(args) <= 2`) it
sends the query command `-1`; otherwise it parses the argument and sends it
only when it is a number in `[0, 100]`, printing a local error (sending
nothing, `none`) otherwise. Returns the `Volume` field of the command sent. -/
def cliVolumeCommand (args : List String) : Option ℤ :=
  if args.length ≤ 2 then some (-1)
  else
    match atoi? (args.getD 2 "") with
    | none => none
    | some v => if v < 0 ∨ v > 100 then none else some v

/-! ## Operation sequences over the playlist (for the cursor invariant) -/

/-- One cursor-moving playlist operation; `next`/`previous` carry the random
generator outcome consumed when shuffled. -/
inductive PlOp where
  | opNext (r : ℕ)
  | opPrev (r : ℕ)
  | opSetIdx (i : ℤ)
  deriving DecidableEq, Repr

/-- Apply one operation, discarding the boolean result. -/
def applyOp (p : PlaylistState) : PlOp → PlaylistState
  | .opNext r => (next p r).1
  | .opPrev r => (previous p r).1
  | .opSetIdx i => (setCurrentIndex p i).1

/-- Apply a sequence of operations left to right. -/
def applyOps (p : PlaylistState) (ops : List PlOp) : PlaylistState :=
  ops.foldl applyOp p

/-! ## Concrete fixtures -/

/-- A numbered test track. -/
def mkTrack (i : ℕ) : Track :=
  { filename := "t" ++ toString i ++ ".mp3", path := "/m/t" ++ toString i ++ ".mp3",
    duration := "" }

/-- A playlist of `n` numbered tracks with cursor `idx`. -/
def mkPlaylist (n : ℕ) (idx : ℤ) (shuffled : Bool) : PlaylistState :=
  { tracks := (List.range n).map mkTrack, currentIdx := idx, source := "/m",
    sourceType := "folder", isShuffled := shuffled }

/-- Reads the number of tracks carried by a list response's payload. -/
def respTrackCount (r : Response) : Option ℕ :=
  match r.payload with
  | some (.playlistInfo _ _ ts _) => some ts.length
  | _ => none

/-! ## Theorems -/

/-- The map `goTrunc` is the identity on natural-number rationals. -/
theorem goTrunc_natCast (n : ℕ) : goTrunc (n : ℚ) = n := by
  simp [goTrunc]

/-- C1: `Player.SetVolume(1.5)` from the initial volume 1.0 returns the
out-of-range error, and the gain stage (`VolumeControl.volume`) keeps its
prior value 1.0 — but `status.Volume` is assigned before validation, so it
becomes 1.5 and a subsequent volume query reports 150%, not the pre-call
volume. The code contradicts the documented error semantics (out-of-range is
a reported error with no state change) and its own gain stage, which does
reject the value. -/
theorem C1_setVolume_out_of_range_updates_status :
    (playerSetVolume newPlayer (3/2)).2 = some "volume must be between 0.0 and 1.0" ∧
    (playerSetVolume newPlayer (3/2)).1.statusVolume = 3/2 ∧
    (playerSetVolume newPlayer (3/2)).1.vcVolume = 1 ∧
    newPlayer.statusVolume = 1 ∧
    (handleVolume (playerSetVolume newPlayer (3/2)).1 (-1)).2.message = "Volume: 150%" := by
  refine ⟨?_, ?_, ?_, rfl, ?_⟩
  · simp [playerSetVolume, vcSetVolume, newPlayer]
    norm_num
  · simp [playerSetVolume, vcSetVolume, newPlayer]
    norm_num
  · simp [playerSetVolume, vcSetVolume, newPlayer]
    norm_num
  · simp [handleVolume, playerSetVolume, vcSetVolume, newPlayer]
    norm_num
    have h : goTrunc 150 = 150 := by norm_num [goTrunc]
    rw [h]
    decide

/-- C2: on a shuffled 2-track playlist with cursor 0, `Playlist.Next` draws
`rand.Intn(2)` with no exclusion of the current index; the generator outcome 0
keeps the cursor at 0 while still returning `true`, so the new index is not
always distinct from the old one. -/
theorem C2_shuffled_next_can_repeat_current_index :
    (next (mkPlaylist 2 0 true) 0).2 = true ∧
    (next (mkPlaylist 2 0 true) 0).1.currentIdx = 0 ∧
    (mkPlaylist 2 0 true).currentIdx = 0 ∧
    (mkPlaylist 2 0 true).tracks.length = 2 ∧
    (mkPlaylist 2 0 true).isShuffled = true := by
  decide

/-- C4: on a 16-track playlist `InfoHandler.HandleList` returns all 16 track
names — `GetTrackWindow` is never consulted — so the response is not bounded
by a 15-track window; the empty playlist does produce the "No tracks loaded"
success response. -/
theorem C4_list_returns_full_list_not_window :
    respTrackCount (handleList (mkPlaylist 16 3 false)) = some 16 ∧
    ¬(16 ≤ 15) ∧
    handleList newPlaylist = successResponse "No tracks loaded" none := by
  decide

/-- C9: whenever the player is not playing (a freshly constructed engine and
the paused state included), `Player.Pause` returns the "playback is not
active" error and the state — flags, loaded track, position, duration and
both volume fields — is returned exactly as it was. -/
theorem C9_pause_not_playing_errors (p : PlayerState) (h : p.isPlaying = false) :
    playerPause p = (p, some "playback is not active") := by
  simp [playerPause, h]

/-- Witness for C9 at the freshly constructed player. -/
theorem C9_pause_not_playing_errors_witness :
    newPlayer.isPlaying = false ∧
    playerPause newPlayer = (newPlayer, some "playback is not active") :=
  ⟨rfl, C9_pause_not_playing_errors newPlayer rfl⟩

/-- C10: `HandleVolume` with volume `-1` is a pure query: the player state is
returned unchanged and the success response carries the 0.0–1.0 volume in its
payload and the truncated percentage in its message; and the CLI sends `-1`
exactly when the user supplies no volume argument (a supplied argument is
either forwarded as a value in `[0,100]` or rejected locally without sending
any command). -/
theorem C10_volume_query_pure_and_cli_default :
    (∀ p : PlayerState,
      (handleVolume p (-1)).1 = p ∧
      (handleVolume p (-1)).2.success = true ∧
      (handleVolume p (-1)).2.payload = some (.volumeInfo p.statusVolume) ∧
      (handleVolume p (-1)).2.message =
        "Volume: " ++ toString (goTrunc (p.statusVolume * 100)) ++ "%") ∧
    (∀ args : List String, cliVolumeCommand args = some (-1) ↔ args.length ≤ 2) := by
  constructor
  · intro p
    refine ⟨?_, ?_, ?_, ?_⟩ <;> simp [handleVolume, successResponse]
  · intro args
    unfold cliVolumeCommand
    split
    · simp
      omega
    · rename_i hlen
      constructor
      · intro h
        cases hA : atoi? (args.getD 2 "") with
        | none => rw [hA] at h; simp at h
        | some v =>
          rw [hA] at h
          simp at h
          omega
      · intro h
        exact absurd h hlen

/-- C3: with repeat mode One (spec-modelled, see `onTrackCompleteRepeat`), the
auto-advance run after a completion callback leaves the playlist — cursor
included — untouched, reloads the same current track into the player and
replays it. -/
theorem C3_repeat_one_replays_same_track (decodeOk : String → Bool)
    (durOf : String → String) (s : Session) (r : ℕ) (t : Track)
    (hmode : s.repeatMode = .one)
    (hcur : getCurrentTrack s.playlist = some t)
    (hdec : decodeOk t.path = true) :
    (onTrackCompleteRepeat decodeOk durOf s r).playlist = s.playlist ∧
    (onTrackCompleteRepeat decodeOk durOf s r).player.currentTrack = some t ∧
    (onTrackCompleteRepeat decodeOk durOf s r).player.isPlaying = true := by
  unfold onTrackCompleteRepeat
  simp only [hmode, hcur]
  cases hp : s.player.isPlaying <;>
    simp [setCurrentTrack, stopAndCleanup, loadAudioFile, playInternal, playerPlay, hdec, hp]

/-- Witness for C3: a 2-track repeat-one session whose completion keeps the
cursor and replays track 0. -/
theorem C3_repeat_one_replays_same_track_witness :
    getCurrentTrack (mkPlaylist 2 0 false) = some (mkTrack 0) ∧
    ((onTrackCompleteRepeat (fun _ => true) (fun _ => "1:00")
        { playlist := mkPlaylist 2 0 false, player := newPlayer, repeatMode := .one }
        7).playlist = mkPlaylist 2 0 false ∧
      (onTrackCompleteRepeat (fun _ => true) (fun _ => "1:00")
        { playlist := mkPlaylist 2 0 false, player := newPlayer, repeatMode := .one }
        7).player.currentTrack = some (mkTrack 0) ∧
      (onTrackCompleteRepeat (fun _ => true) (fun _ => "1:00")
        { playlist := mkPlaylist 2 0 false, player := newPlayer, repeatMode := .one }
        7).player.isPlaying = true) :=
  ⟨by decide,
    C3_repeat_one_replays_same_track (fun _ => true) (fun _ => "1:00")
      { playlist := mkPlaylist 2 0 false, player := newPlayer, repeatMode := .one }
      7 (mkTrack 0) rfl (by decide) rfl⟩

/-- C7: on a non-shuffled playlist with the cursor at the last index,
`Playlist.Next` (the repeat-Off advance) returns `false` and leaves the state
unchanged, while the repeat-All advance (spec-modelled, see
`advanceForwardRepeat`) wraps the cursor to 0 and reports movement. -/
theorem C7_boundary_off_stops_all_wraps (p : PlaylistState) (r : ℕ)
    (hsh : p.isShuffled = false) (hne : p.tracks ≠ [])
    (hcur : p.currentIdx = (p.tracks.length : ℤ) - 1) :
    next p r = (p, false) ∧
    (advanceForwardRepeat .all p r).1.currentIdx = 0 ∧
    (advanceForwardRepeat .all p r).2 = true := by
  have hlen : p.tracks.length ≠ 0 := by simpa using hne
  have hnext : next p r = (p, false) := by
    unfold next
    simp [hlen, hsh, hcur]
  refine ⟨hnext, ?_, ?_⟩ <;>
    simp [advanceForwardRepeat, hnext, hlen, hsh]

/-- Witness for C7 on a 3-track playlist with cursor 2. -/
theorem C7_boundary_off_stops_all_wraps_witness :
    (mkPlaylist 3 2 false).isShuffled = false ∧
    (next (mkPlaylist 3 2 false) 4 = (mkPlaylist 3 2 false, false) ∧
      (advanceForwardRepeat .all (mkPlaylist 3 2 false) 4).1.currentIdx = 0 ∧
      (advanceForwardRepeat .all (mkPlaylist 3 2 false) 4).2 = true) :=
  ⟨rfl, C7_boundary_off_stops_all_wraps (mkPlaylist 3 2 false) 4 rfl (by decide) (by decide)⟩

/-- Every cursor operation leaves the track list itself untouched. -/
theorem applyOp_tracks (p : PlaylistState) (op : PlOp) : (applyOp p op).tracks = p.tracks := by
  cases op <;> simp only [applyOp, next, previous, setCurrentIndex] <;> split_ifs <;> rfl

/-- One `Next`/`Previous`/`SetCurrentIndex` call preserves the cursor bounds
on a non-empty playlist. -/
theorem applyOp_invariant (p : PlaylistState) (op : PlOp)
    (hne : p.tracks ≠ []) (hlo : 0 ≤ p.currentIdx)
    (hhi : p.currentIdx < (p.tracks.length : ℤ)) :
    0 ≤ (applyOp p op).currentIdx ∧
      (applyOp p op).currentIdx < ((applyOp p op).tracks.length : ℤ) := by
  rw [applyOp_tracks]
  have hpos : 0 < p.tracks.length := List.length_pos.mpr hne
  have hmod : ∀ r : ℕ, ((r % p.tracks.length : ℕ) : ℤ) < (p.tracks.length : ℤ) :=
    fun r => by exact_mod_cast Nat.mod_lt _ hpos
  cases op with
  | opNext r =>
    simp only [applyOp, next]
    split_ifs <;>
      first
        | exact ⟨hlo, hhi⟩
        | exact ⟨Int.natCast_nonneg _, hmod r⟩
        | exact ⟨by simp; omega, by simp; omega⟩
  | opPrev r =>
    simp only [applyOp, previous]
    split_ifs <;>
      first
        | exact ⟨hlo, hhi⟩
        | exact ⟨Int.natCast_nonneg _, hmod r⟩
        | exact ⟨by simp; omega, by simp; omega⟩
  | opSetIdx i =>
    simp only [applyOp, setCurrentIndex]
    split_ifs with h
    · exact ⟨hlo, hhi⟩
    · push_neg at h
      exact ⟨h.1, h.2⟩

/-- C6: on a non-empty playlist, after any sequence of `Next`, `Previous` and
`SetCurrentIndex` calls — shuffled or not, whatever the generator outcomes —
the cursor stays within `0 ≤ currentIdx < len(tracks)`. -/
theorem C6_cursor_invariant (p : PlaylistState) (ops : List PlOp)
    (hne : p.tracks ≠ []) (hlo : 0 ≤ p.currentIdx)
    (hhi : p.currentIdx < (p.tracks.length : ℤ)) :
    0 ≤ (applyOps p ops).currentIdx ∧
      (applyOps p ops).currentIdx < ((applyOps p ops).tracks.length : ℤ) := by
  induction ops generalizing p with
  | nil => exact ⟨hlo, hhi⟩
  | cons op ops ih =>
    have h := applyOp_invariant p op hne hlo hhi
    have hne' : (applyOp p op).tracks ≠ [] := by rw [applyOp_tracks]; exact hne
    rw [applyOp_tracks] at h
    exact ih (applyOp p op) hne' h.1 (by rw [applyOp_tracks]; exact h.2)

/-- Witness for C6 on a 3-track playlist and a mixed operation sequence. -/
theorem C6_cursor_invariant_witness :
    (mkPlaylist 3 0 false).tracks ≠ [] ∧
    (0 ≤ (applyOps (mkPlaylist 3 0 false)
        [.opNext 0, .opSetIdx 2, .opPrev 5, .opNext 9]).currentIdx ∧
      (applyOps (mkPlaylist 3 0 false)
        [.opNext 0, .opSetIdx 2, .opPrev 5, .opNext 9]).currentIdx <
        ((applyOps (mkPlaylist 3 0 false)
          [.opNext 0, .opSetIdx 2, .opPrev 5, .opNext 9]).tracks.length : ℤ)) :=
  ⟨by decide, C6_cursor_invariant (mkPlaylist 3 0 false) _ (by decide) (by decide) (by decide)⟩

/-- Replacing the cursor with its own value is the identity. -/
theorem playlist_update_self (p : PlaylistState) (x : ℤ) (h : x = p.currentIdx) :
    ({ p with currentIdx := x } : PlaylistState) = p := by
  cases p
  subst h
  rfl

/-- Cursor updates are congruent in the new cursor value. -/
theorem playlist_update_congr (p : PlaylistState) (x y : ℤ) (h : x = y) :
    ({ p with currentIdx := x } : PlaylistState) = { p with currentIdx := y } := by
  rw [h]

/-- On a valid cursor, `GetCurrentTrack` is plain list indexing. -/
theorem getCurrentTrack_eq_get (q : PlaylistState) (h0 : 0 ≤ q.currentIdx)
    (h1 : q.currentIdx < (q.tracks.length : ℤ)) :
    getCurrentTrack q = q.tracks.get? q.currentIdx.toNat := by
  unfold getCurrentTrack
  rw [if_neg]
  push_neg
  exact ⟨by omega, h0, h1⟩

/-- The skip loop never moves an empty playlist. -/
theorem skipLoop_empty (rngs : ℕ → ℕ) (m : ℕ) (p : PlaylistState) (i k : ℕ)
    (h : p.tracks = []) : skipLoop p rngs i m k = (p, k) := by
  cases m with
  | zero => rfl
  | succ m =>
    have hnext : next p (rngs i) = (p, false) := by
      unfold next
      simp [h]
    simp [skipLoop, hnext]

/-- On a non-shuffled playlist with a valid cursor, `m` iterations of the skip
loop clamp the cursor at the last index and count exactly the realized
moves. -/
theorem skipLoop_spec (rngs : ℕ → ℕ) (m : ℕ) :
    ∀ (p : PlaylistState) (i k : ℕ),
      p.isShuffled = false → p.tracks ≠ [] →
      0 ≤ p.currentIdx → p.currentIdx < (p.tracks.length : ℤ) →
      (skipLoop p rngs i m k).1 =
        { p with currentIdx := min (p.currentIdx + m) ((p.tracks.length : ℤ) - 1) } ∧
      (skipLoop p rngs i m k).2 =
        k + (min (m : ℤ) ((p.tracks.length : ℤ) - 1 - p.currentIdx)).toNat := by
  induction m with
  | zero =>
    intro p i k hsh hne hlo hhi
    have h1 : min (p.currentIdx + ((0:ℕ) : ℤ)) ((p.tracks.length : ℤ) - 1) = p.currentIdx := by
      omega
    have h2 : (min ((0:ℕ) : ℤ) ((p.tracks.length : ℤ) - 1 - p.currentIdx)).toNat = 0 := by
      omega
    rw [h1, h2]
    exact ⟨(playlist_update_self p _ rfl).symm, rfl⟩
  | succ m ih =>
    intro p i k hsh hne hlo hhi
    have hlen : p.tracks.length ≠ 0 := by simpa using hne
    by_cases hlt : p.currentIdx < (p.tracks.length : ℤ) - 1
    · have hnext : next p (rngs i) = ({ p with currentIdx := p.currentIdx + 1 }, true) := by
        unfold next
        simp [hlen, hsh, hlt]
      have ihp := ih { p with currentIdx := p.currentIdx + 1 } (i + 1) (k + 1)
        hsh hne (by simp; omega) (by simp; omega)
      simp only [skipLoop, hnext]
      simp only at ihp
      refine ⟨ihp.1.trans ?_, ihp.2.trans ?_⟩
      · apply playlist_update_congr
        simp only [PlaylistState.mk.injEq] at *
        push_cast
        omega
      · push_cast
        omega
    · have hnext : next p (rngs i) = (p, false) := by
        unfold next
        simp [hlen, hsh, hlt]
      simp only [skipLoop, hnext]
      constructor
      · exact (playlist_update_self p _ (by push_cast; omega)).symm
      · push_cast
        omega

/-- C8: on a non-shuffled playlist of `n` tracks with valid cursor `i`, skip
with count `c ≥ 1` clamps the cursor to `min (i+c) (n-1)`, succeeds exactly
when it was not already at the last index, in which case the resulting
current track is loaded into the player and the response message reports
`min c (n-1-i)` tracks skipped; at the last index the handler leaves
everything unchanged with the "already at the end" error, and on the empty
playlist every skip is that same error. -/
theorem C8_skip_clamps_loads_and_reports (decodeOk : String → Bool) (durOf : String → String)
    (pl : PlaylistState) (player : PlayerState) (c : ℤ) (rngs : ℕ → ℕ) (t : Track)
    (hsh : pl.isShuffled = false) (hne : pl.tracks ≠ [])
    (hlo : 0 ≤ pl.currentIdx) (hhi : pl.currentIdx < (pl.tracks.length : ℤ))
    (hc : 1 ≤ c)
    (ht : pl.tracks.get? (min (pl.currentIdx + c) ((pl.tracks.length : ℤ) - 1)).toNat = some t)
    (hdec : decodeOk t.path = true) :
    (handleSkip decodeOk durOf pl player c rngs).playlist.currentIdx =
      min (pl.currentIdx + c) ((pl.tracks.length : ℤ) - 1) ∧
    ((handleSkip decodeOk durOf pl player c rngs).response.success = true ↔
      pl.currentIdx < (pl.tracks.length : ℤ) - 1) ∧
    (pl.currentIdx < (pl.tracks.length : ℤ) - 1 →
      (handleSkip decodeOk durOf pl player c rngs).player.currentTrack = some t ∧
      (handleSkip decodeOk durOf pl player c rngs).response.message =
        "Skipped " ++ toString (min c ((pl.tracks.length : ℤ) - 1 - pl.currentIdx)).toNat ++
          " track(s), now playing: " ++ t.filename) ∧
    (¬ pl.currentIdx < (pl.tracks.length : ℤ) - 1 →
      handleSkip decodeOk durOf pl player c rngs =
        { playlist := pl, player := player,
          response := errorResponse "Already at the end of playlist" }) ∧
    (∀ (player' : PlayerState) (c' : ℤ) (rngs' : ℕ → ℕ),
      (handleSkip decodeOk durOf newPlaylist player' c' rngs').response =
        errorResponse "Already at the end of playlist") := by
  have hcle : (if c ≤ 0 then (1:ℤ) else c) = c := if_neg (by omega)
  have hloop := skipLoop_spec rngs c.toNat pl 0 0 hsh hne hlo hhi
  have hcast : ((c.toNat : ℤ)) = c := by omega
  rw [hcast] at hloop
  have hpair : skipLoop pl rngs 0 c.toNat 0 =
      ({ pl with currentIdx := min (pl.currentIdx + c) ((pl.tracks.length : ℤ) - 1) },
        0 + (min c ((pl.tracks.length : ℤ) - 1 - pl.currentIdx)).toNat) :=
    Prod.ext hloop.1 hloop.2
  have hemptyc : ∀ (player' : PlayerState) (c' : ℤ) (rngs' : ℕ → ℕ),
      (handleSkip decodeOk durOf newPlaylist player' c' rngs').response =
        errorResponse "Already at the end of playlist" := by
    intro player' c' rngs'
    have he := skipLoop_empty rngs' ((if c' ≤ 0 then 1 else c') : ℤ).toNat newPlaylist 0 0 rfl
    simp only [handleSkip, he]
    rfl
  by_cases hend : pl.currentIdx < (pl.tracks.length : ℤ) - 1
  · have hskipped : ¬(0 + (min c ((pl.tracks.length : ℤ) - 1 - pl.currentIdx)).toNat = 0) := by
      omega
    have hM0 : (0:ℤ) ≤ min (pl.currentIdx + c) ((pl.tracks.length : ℤ) - 1) :=
      le_min (by omega) (by omega)
    have hM1 : min (pl.currentIdx + c) ((pl.tracks.length : ℤ) - 1) ≤
        (pl.tracks.length : ℤ) - 1 := min_le_right _ _
    have hcur : getCurrentTrack
        { pl with currentIdx := min (pl.currentIdx + c) ((pl.tracks.length : ℤ) - 1) } =
        some t := by
      rw [getCurrentTrack_eq_get _ hM0 (lt_of_le_of_lt hM1 (by simp))]
      exact ht
    have hmain : handleSkip decodeOk durOf pl player c rngs =
        { playlist :=
            { pl with currentIdx := min (pl.currentIdx + c) ((pl.tracks.length : ℤ) - 1) },
          player := setCurrentTrack decodeOk durOf player (some t),
          response := successResponse
            ("Skipped " ++ toString (min c ((pl.tracks.length : ℤ) - 1 - pl.currentIdx)).toNat ++
              " track(s), now playing: " ++ t.filename) none } := by
      simp only [handleSkip, hcle, hpair]
      rw [if_neg hskipped, hcur]
      simp
    rw [hmain]
    refine ⟨rfl, by simp [successResponse, hend], fun _ => ⟨?_, rfl⟩,
      fun h => absurd hend h, hemptyc⟩
    cases hp : player.isPlaying <;>
      simp [setCurrentTrack, stopAndCleanup, loadAudioFile, playInternal, hdec, hp]
  · have hidx : pl.currentIdx = (pl.tracks.length : ℤ) - 1 := by omega
    have hmin1 : min (pl.currentIdx + c) ((pl.tracks.length : ℤ) - 1) = pl.currentIdx := by
      omega
    have hskipped : 0 + (min c ((pl.tracks.length : ℤ) - 1 - pl.currentIdx)).toNat = 0 := by
      omega
    have hmain : handleSkip decodeOk durOf pl player c rngs =
        { playlist := pl, player := player,
          response := errorResponse "Already at the end of playlist" } := by
      simp only [handleSkip, hcle, hpair]
      rw [if_pos hskipped, playlist_update_self pl _ hmin1.symm.symm]
    rw [hmain]
    exact ⟨by simpa using hmin1.symm, by simp [errorResponse, hend],
      fun h => absurd h hend, fun _ => rfl, hemptyc⟩

/-- Witness for C8: skip 5 on a 3-track playlist at cursor 0 clamps to the
last track and reports 2 tracks skipped. -/
theorem C8_skip_clamps_loads_and_reports_witness :
    (mkPlaylist 3 0 false).isShuffled = false ∧
    ((handleSkip (fun _ => true) (fun _ => "1:00") (mkPlaylist 3 0 false) newPlayer 5
        (fun _ => 0)).playlist.currentIdx =
      min ((mkPlaylist 3 0 false).currentIdx + 5)
        (((mkPlaylist 3 0 false).tracks.length : ℤ) - 1) ∧
      (((handleSkip (fun _ => true) (fun _ => "1:00") (mkPlaylist 3 0 false) newPlayer 5
        (fun _ => 0)).response.success = true) ↔
        (mkPlaylist 3 0 false).currentIdx < ((mkPlaylist 3 0 false).tracks.length : ℤ) - 1)) :=
  ⟨rfl,
    ((C8_skip_clamps_loads_and_reports (fun _ => true) (fun _ => "1:00")
      (mkPlaylist 3 0 false) newPlayer 5 (fun _ => 0) (mkTrack 2)
      rfl (by decide) (by decide) (by decide) (by decide) (by decide) rfl).1),
    ((C8_skip_clamps_loads_and_reports (fun _ => true) (fun _ => "1:00")
      (mkPlaylist 3 0 false) newPlayer 5 (fun _ => 0) (mkTrack 2)
      rfl (by decide) (by decide) (by decide) (by decide) (by decide) rfl).2.1)⟩

/-- C5 counterexample: `GetTrackWindow(2)` on a 3-track playlist (so
`total > size ≥ 1`) returns 1 track, not the 2 the claim demands — the
window always spans `2*((size-1)/2)+1` entries, which is `size - 1` for even
sizes. -/
theorem C5_window_even_size_counterexample :
    ((mkPlaylist 3 0 false).tracks.length : ℤ) > 2 ∧ (1:ℤ) ≤ 2 ∧
    (getTrackWindow (mkPlaylist 3 0 false) 2).1.length = 1 ∧ (1 : ℕ) ≠ 2 := by
  decide

/-- Closed form of `GetTrackWindow` for `total > size ≥ 1` and a valid
cursor: the start offset is the centered position clamped into
`[0, total-1-2*ctx]` and the window is the slice of `2*ctx+1` tracks from
there, `ctx = (size-1)/2` (truncating division). -/
theorem getTrackWindow_eq (p : PlaylistState) (size : ℤ)
    (hs : 1 ≤ size) (ht : size < (p.tracks.length : ℤ))
    (hlo : 0 ≤ p.currentIdx) (hhi : p.currentIdx < (p.tracks.length : ℤ)) :
    getTrackWindow p size =
      ((p.tracks.drop (max 0 (min (p.currentIdx - Int.tdiv (size - 1) 2)
          ((p.tracks.length : ℤ) - 1 - 2 * Int.tdiv (size - 1) 2))).toNat).take
        (2 * Int.tdiv (size - 1) 2 + 1).toNat,
       max 0 (min (p.currentIdx - Int.tdiv (size - 1) 2)
          ((p.tracks.length : ℤ) - 1 - 2 * Int.tdiv (size - 1) 2)),
       (p.tracks.length : ℤ)) := by
  have hdiv := Int.tdiv_eq_ediv (a := size - 1) (b := 2) (by omega) (by omega)
  have hctx1 : 2 * Int.tdiv (size - 1) 2 ≤ size - 1 := by rw [hdiv]; omega
  have hctx2 : size - 1 ≤ 2 * Int.tdiv (size - 1) 2 + 1 := by rw [hdiv]; omega
  simp only [getTrackWindow]
  rw [if_neg (by omega), if_neg (by omega)]
  split_ifs with h1 h2 h3 h4 h5 <;>
    simp only [Prod.fst, Prod.snd] <;>
    (refine congrArg₂ Prod.mk ?_ (congrArg₂ Prod.mk ?_ rfl) <;>
      first
        | omega
        | (congr 1 <;> first | omega | (congr 1 <;> omega)))

/-- C5 (amended): any playlist whose track count fits in the window is
returned whole with offset 0; otherwise, for `size ≥ 1` and a valid cursor,
the window holds exactly `2*((size-1)/2)+1` tracks (`= size` when `size` is
odd), taken from in-bounds indices, centered on the current index with
`(size-1)/2` tracks of context on each side and clamped at both ends. -/
theorem C5_window_centered_clamped (p : PlaylistState) (size : ℤ)
    (hs : 1 ≤ size) (ht : size < (p.tracks.length : ℤ))
    (hlo : 0 ≤ p.currentIdx) (hhi : p.currentIdx < (p.tracks.length : ℤ)) :
    (∀ (q : PlaylistState) (sz : ℤ), (q.tracks.length : ℤ) ≤ sz →
      getTrackWindow q sz = (q.tracks, 0, (q.tracks.length : ℤ))) ∧
    (getTrackWindow p size).2.2 = (p.tracks.length : ℤ) ∧
    (getTrackWindow p size).2.1 =
      max 0 (min (p.currentIdx - Int.tdiv (size - 1) 2)
        ((p.tracks.length : ℤ) - 1 - 2 * Int.tdiv (size - 1) 2)) ∧
    ((getTrackWindow p size).1.length : ℤ) = 2 * Int.tdiv (size - 1) 2 + 1 ∧
    (getTrackWindow p size).1 =
      (p.tracks.drop (getTrackWindow p size).2.1.toNat).take
        (2 * Int.tdiv (size - 1) 2 + 1).toNat ∧
    0 ≤ (getTrackWindow p size).2.1 ∧
    (getTrackWindow p size).2.1 + 2 * Int.tdiv (size - 1) 2 + 1 ≤ (p.tracks.length : ℤ) ∧
    (getTrackWindow p size).2.1 ≤ p.currentIdx ∧
    p.currentIdx ≤ (getTrackWindow p size).2.1 + 2 * Int.tdiv (size - 1) 2 := by
  have hsmall : ∀ (q : PlaylistState) (sz : ℤ), (q.tracks.length : ℤ) ≤ sz →
      getTrackWindow q sz = (q.tracks, 0, (q.tracks.length : ℤ)) := by
    intro q sz hq
    unfold getTrackWindow
    by_cases h0 : (q.tracks.length : ℤ) = 0
    · rw [if_pos h0]
      have hq0 : q.tracks = [] := by
        rw [← List.length_eq_zero]
        omega
      rw [hq0]
      simp
    · rw [if_neg h0, if_pos hq]
  have hdiv := Int.tdiv_eq_ediv (a := size - 1) (b := 2) (by omega) (by omega)
  have hctx1 : 2 * Int.tdiv (size - 1) 2 ≤ size - 1 := by rw [hdiv]; omega
  have h := getTrackWindow_eq p size hs ht hlo hhi
  have h22 : (getTrackWindow p size).2.2 = (p.tracks.length : ℤ) := by rw [h]
  have h21 : (getTrackWindow p size).2.1 =
      max 0 (min (p.currentIdx - Int.tdiv (size - 1) 2)
        ((p.tracks.length : ℤ) - 1 - 2 * Int.tdiv (size - 1) 2)) := by rw [h]
  have h11 : (getTrackWindow p size).1 =
      (p.tracks.drop (max 0 (min (p.currentIdx - Int.tdiv (size - 1) 2)
          ((p.tracks.length : ℤ) - 1 - 2 * Int.tdiv (size - 1) 2))).toNat).take
        (2 * Int.tdiv (size - 1) 2 + 1).toNat := by rw [h]
  refine ⟨hsmall, h22, h21, ?_, by rw [h11, h21], by omega, ?_, by omega, by omega⟩
  · rw [h11]
    simp only [List.length_take, List.length_drop]
    push_cast
    omega
  · rw [h21]
    omega

/-- Witness for C5: the documented example — a 15-track window on a
5763-track playlist with current index 2435 starts at index 2428 and holds
exactly 15 tracks, the current track seventh in the window (its center). -/
theorem C5_window_centered_clamped_witness :
    (getTrackWindow (mkPlaylist 5763 2435 false) 15).2.1 = 2428 ∧
    ((getTrackWindow (mkPlaylist 5763 2435 false) 15).1.length : ℤ) = 15 := by
  have hlen : ((mkPlaylist 5763 2435 false).tracks.length : ℤ) = 5763 := by
    simp [mkPlaylist]
  have h := C5_window_centered_clamped (mkPlaylist 5763 2435 false) 15
    (by norm_num) (by rw [hlen]; norm_num) (by norm_num [mkPlaylist])
    (by rw [hlen]; norm_num [mkPlaylist])
  refine ⟨h.2.2.1.trans ?_, h.2.2.2.1.trans ?_⟩
  · rw [hlen]
    simp only [mkPlaylist]
    decide
  · decide

end Auxbox
